import Mathlib

/-!
Verification of the path/URI utilities in `src/tools/pathtools.cpp` of the
aardvark repository.

Strings are modelled as Lean `String` values, operated on through their
character lists (`String.data`). Machine integers (`size_t`) are modelled as
`Nat` with explicit reduction modulo `2 ^ 64` exactly where the C++ code can
wrap around. `std::filesystem::path` values are modelled as strings together
with the Windows decomposition into root name, root directory and relative
path (the translation unit is Windows-only: it includes `windows.h`);
`FileUriToPath` keeps both of its preprocessor branches, selected by an
explicit `windows : Bool` parameter.
-/

namespace PathTools

/-- Word size of `size_t` on the target platform: all size arithmetic in the
C++ code is performed modulo this value. -/
def USIZE : Nat := 2 ^ 64

/-- Model of C `strncmp(s, t, n) == 0` on NUL-terminated views of the two
strings: compare at most `n` characters, where running off the end of one
string behaves as the NUL terminator (distinct from every character that can
occur in a Lean `Char` list coming from a C++ string compared against a
NUL-free literal). -/
def cstrncmpEq : List Char → List Char → Nat → Bool
  | _, _, 0 => true
  | [], [], _ => true
  | [], _ :: _, _ => false
  | _ :: _, [], _ => false
  | a :: as, b :: bs, n + 1 => a == b && cstrncmpEq as bs n

/-- `IsFileUri` from pathtools.cpp: two `strncmp` calls against the exact
casings `file://` and `FILE://`, seven characters each. -/
def IsFileUri (uri : String) : Bool :=
  cstrncmpEq uri.data "file://".data 7 || cstrncmpEq uri.data "FILE://".data 7

/-- Modelled from the spec: `stringToLower` lives in stringtools, which is not
under src/; the spec says `IsHttpUri` lower-cases the full input, so this maps
the ASCII lower-casing over every character (matching C `tolower` in the
default locale). -/
def stringToLower (s : List Char) : List Char := s.map Char.toLower

/-- `IsHttpUri` from pathtools.cpp: lower-case the whole string, then
`strncmp` against `http://` (7 characters) and `https://` (8 characters). -/
def IsHttpUri (uri : String) : Bool :=
  cstrncmpEq (stringToLower uri.data) "http://".data 7
    || cstrncmpEq (stringToLower uri.data) "https://".data 8

/-- `FileUriToPath` from pathtools.cpp. The `windows` flag selects the
`#if defined( _WINDOWS )` branch of the source. The index-7 access is guarded
by the length check, so `List.get?` is an exact model of `sUri[7]`. -/
def FileUriToPath (windows : Bool) (uri : String) : String :=
  if uri.data.length < 8 ∨ IsFileUri uri = false then
    ""
  else if uri.data[7]? = some '/' then
    String.mk (uri.data.drop 8)
  else if windows then
    String.mk (uri.data.drop 5)
  else
    String.mk (uri.data.drop 6)

/-- Character class of path separators in the Windows implementation of
`std::filesystem::path`. -/
def isSep (c : Char) : Bool := c == '/' || c == '\\'

/-- Conversion of one character to the generic (forward-slash) path format,
also the effect of the final `std::replace` over the built URI string. -/
def toSlash (c : Char) : Char := if c = '\\' then '/' else c

/-- Windows decomposition of a path string into its root name and the rest:
a drive root name is a letter followed by a colon; a UNC root name is two
separators followed by a nonempty host segment that does not itself start
with a separator. Every other path has an empty root name. Root name, root
directory and relative path are contiguous substrings of the stored native
string, so the decomposition is a split. -/
def splitRootName : List Char → List Char × List Char
  | a :: b :: rest =>
    if a.isAlpha && b == ':' then
      ([a, b], rest)
    else if isSep a && isSep b then
      match rest with
      | [] => ([], a :: b :: rest)
      | c :: _ =>
        if isSep c then
          ([], a :: b :: rest)
        else
          (a :: b :: rest.takeWhile (fun ch => !(isSep ch)),
            rest.dropWhile (fun ch => !(isSep ch)))
    else
      ([], a :: b :: rest)
  | s => ([], s)

/-- `PathToFileUri` from pathtools.cpp. `root_name().generic_string()` is the
root name with separators converted to slashes; `root_directory().string()`
and `relative_path().string()` are the separator run after the root name and
the remaining text, in the original (native) spelling; the final
`std::replace` maps every backslash of the built string to a slash. The
condition on the root name keeps the C++ operator precedence:
`(size >= 2 && starts with //) || (starts with backslash-backslash)`. -/
def PathToFileUri (p : String) : String :=
  let rn := (splitRootName p.data).1
  let rest := (splitRootName p.data).2
  let rootDir := rest.takeWhile isSep
  let relPath := rest.dropWhile isSep
  let sUri : List Char :=
    if 0 < rn.length then
      if (2 ≤ rn.length ∧ rn.take 2 = ['/', '/']) ∨ rn.take 2 = ['\\', '\\'] then
        "file:".data ++ rn.map toSlash
      else
        "file:///".data ++ rn.map toSlash
    else
      "file://".data
  String.mk ((sUri ++ rootDir ++ relPath).map toSlash)

/-- Modelled from the spec: `stringIsPrefix` lives in stringtools, which is
not under src/; the spec says a scheme prefix is stripped when present, so
the helper is the plain starts-with test, written here with
`List.isPrefixOf`. The three `assign` calls of `UriToSubpath` drop exactly
`strlen` of the matched scheme. -/
def stripScheme (l : List Char) : List Char :=
  if "http://".data.isPrefixOf l then l.drop 7
  else if "https://".data.isPrefixOf l then l.drop 8
  else if "ipfs://".data.isPrefixOf l then l.drop 7
  else l

/-- The `switch` of `UriToSubpath`: the seven listed characters fall through
to `c = '_'`; every other character is left unchanged. -/
def replaceSpecialChar (c : Char) : Char :=
  if c == '/' || c == '\\' || c == '#' || c == '?' || c == ':' || c == '.'
      || c == '&' then '_' else c

/-- The string `UriToSubpath` has built right before its truncation step:
scheme stripped, special characters replaced. -/
def sanitized (uri : String) : List Char :=
  (stripScheme uri.data).map replaceSpecialChar

/-- `UriToSubpath` from pathtools.cpp. The truncation step is
`result.erase(0, maxLength - result.size())` on `size_t` values: the
subtraction wraps modulo `2 ^ 64`, and `erase(0, n)` removes
`min(n, size)` characters from the front, which is `List.drop n`. -/
def UriToSubpath (uri : String) (maxLength : Nat) : String :=
  if maxLength < (sanitized uri).length then
    String.mk ((sanitized uri).drop ((maxLength + USIZE - (sanitized uri).length) % USIZE))
  else
    String.mk (sanitized uri)

/-- Written from the words of the spec (section 4.2), for comparison with
`UriToSubpath`: strip the first matching scheme among `http://`, `https://`,
`ipfs://` checked in that order, then replace every occurrence of the seven
listed special characters by an underscore, keeping all other characters. -/
def specSanitize (uri : String) : String :=
  let stripped :=
    if "http://".data.isPrefixOf uri.data then uri.data.drop 7
    else if "https://".data.isPrefixOf uri.data then uri.data.drop 8
    else if "ipfs://".data.isPrefixOf uri.data then uri.data.drop 7
    else uri.data
  String.mk (stripped.map (fun c => if c ∈ "/\\#?:.&".data then '_' else c))

/-! ### Helper lemmas -/

theorem data_mk (l : List Char) : (String.mk l).data = l := rfl

theorem charBeq_comm (a b : Char) : (a == b) = (b == a) := by
  by_cases h : a = b
  · simp [h]
  · rw [beq_eq_false_iff_ne.mpr h, beq_eq_false_iff_ne.mpr (fun hh => h hh.symm)]

/-- The bounded C comparison against a NUL-free pattern of length `n` is the
starts-with test. -/
theorem cstrncmpEq_len (t : List Char) (n : Nat) (hn : t.length = n) :
    ∀ s : List Char, cstrncmpEq s t n = t.isPrefixOf s := by
  subst hn
  induction t with
  | nil => intro s; cases s <;> rfl
  | cons b bs ih =>
    intro s
    cases s with
    | nil => rfl
    | cons a as =>
      simp only [List.length_cons, cstrncmpEq, List.isPrefixOf, ih, charBeq_comm]

theorem isPrefixOf_head {b : Char} {bs l : List Char}
    (h : (b :: bs).isPrefixOf l = true) : l.head? = some b := by
  cases l with
  | nil => simp [List.isPrefixOf] at h
  | cons a as =>
    simp only [List.isPrefixOf, Bool.and_eq_true, beq_iff_eq] at h
    rw [h.1]
    rfl

theorem replaceSpecialChar_eq_mem (c : Char) :
    replaceSpecialChar c = if c ∈ "/\\#?:.&".data then '_' else c := by
  have hd : "/\\#?:.&".data = ['/', '\\', '#', '?', ':', '.', '&'] := rfl
  rw [hd]
  by_cases h : c ∈ ['/', '\\', '#', '?', ':', '.', '&']
  · rw [if_pos h]
    simp only [List.mem_cons, List.not_mem_nil, or_false] at h
    rcases h with h | h | h | h | h | h | h <;> subst h <;> decide
  · rw [if_neg h]
    simp only [List.mem_cons, List.not_mem_nil, or_false, not_or] at h
    obtain ⟨h1, h2, h3, h4, h5, h6, h7⟩ := h
    simp [replaceSpecialChar, beq_eq_false_iff_ne.mpr h1, beq_eq_false_iff_ne.mpr h2,
      beq_eq_false_iff_ne.mpr h3, beq_eq_false_iff_ne.mpr h4, beq_eq_false_iff_ne.mpr h5,
      beq_eq_false_iff_ne.mpr h6, beq_eq_false_iff_ne.mpr h7]

/-- The description of the sanitizer in the words of the spec agrees with the
string the source builds before truncation. -/
theorem specSanitize_eq (uri : String) : specSanitize uri = String.mk (sanitized uri) := by
  simp only [specSanitize, sanitized, stripScheme]
  congr 1
  · exact List.map_congr_left (fun c _ => (replaceSpecialChar_eq_mem c).symm)

theorem sanitized_length_le (uri : String) : (sanitized uri).length ≤ uri.data.length := by
  unfold sanitized stripScheme
  rw [List.length_map]
  split
  · simp [List.length_drop]
  · split
    · simp [List.length_drop]
    · split
      · simp [List.length_drop]
      · exact Nat.le_refl _

theorem replaceSpecialChar_not_special (c : Char) :
    "/\\#?:.&".data.contains (replaceSpecialChar c) = false := by
  unfold replaceSpecialChar
  split
  · decide
  · rename_i h
    simp only [Bool.or_eq_true, beq_iff_eq, not_or] at h
    obtain ⟨⟨⟨⟨⟨⟨h1, h2⟩, h3⟩, h4⟩, h5⟩, h6⟩, h7⟩ := h
    simp [List.contains, List.elem, beq_eq_false_iff_ne.mpr h1, beq_eq_false_iff_ne.mpr h2,
      beq_eq_false_iff_ne.mpr h3, beq_eq_false_iff_ne.mpr h4, beq_eq_false_iff_ne.mpr h5,
      beq_eq_false_iff_ne.mpr h6, beq_eq_false_iff_ne.mpr h7]

theorem USIZE_eq : USIZE = 18446744073709551616 := by norm_num [USIZE]

theorem splitRootName_drive (a : Char) (rest : List Char) (ha : a.isAlpha = true) :
    splitRootName (a :: ':' :: rest) = ([a, ':'], rest) := by
  simp [splitRootName, ha]

theorem isPrefixOf_false_of_short {t l : List Char} (h : l.length < t.length) :
    t.isPrefixOf l = false := by
  cases hv : t.isPrefixOf l
  · rfl
  · exfalso
    have := (List.isPrefixOf_iff_prefix.mp hv).length_le
    omega

/-! ### Claim theorems -/

/-- C1 (code bug): the truncation step of `UriToSubpath` is
`result.erase(0, maxLength - result.size())`; since the subtraction is on
`size_t` and runs only when `size > maxLength`, it wraps around and the erase
count exceeds the string length, so the whole string is erased. On the
repository's own test input `("01234567890123456789", 7)` the code returns
the empty string, while the test (and the spec) demand the trailing seven
characters `"3456789"`. -/
theorem uriToSubpath_truncation_bug :
    UriToSubpath "01234567890123456789" 7 = "" ∧
    UriToSubpath "01234567890123456789" 7 ≠ "3456789" := by
  exact ⟨by decide, by decide⟩

/-- C2 (counterexample): `UriToSubpath("a", 0)` returns the empty string, not
the full stripped-and-replaced string `"a"`, so `maxLength = 0` does not
disable truncation. -/
theorem uriToSubpath_zero_counterexample :
    UriToSubpath "a" 0 = "" ∧ String.mk (sanitized "a") = "a" ∧
    UriToSubpath "a" 0 ≠ String.mk (sanitized "a") := by
  exact ⟨by decide, by decide, by decide⟩

/-- C2 (amended): calling `UriToSubpath` with `maxLength` equal to zero
truncates everything: for every uri (of representable length), the result is
the empty string — the opposite of disabling truncation. -/
theorem uriToSubpath_zero_truncates_all (uri : String)
    (h : uri.data.length ≤ 2 ^ 63) : UriToSubpath uri 0 = "" := by
  have h63 : (2 : Nat) ^ 63 = 9223372036854775808 := by norm_num
  rw [h63] at h
  have hle : (sanitized uri).length ≤ 9223372036854775808 :=
    le_trans (sanitized_length_le uri) h
  unfold UriToSubpath
  split
  · rename_i hgt
    have hmod : (0 + USIZE - (sanitized uri).length) % USIZE
        = USIZE - (sanitized uri).length := by
      rw [USIZE_eq]
      apply Nat.mod_eq_of_lt
      omega
    rw [hmod, List.drop_eq_nil_of_le]
    · rw [USIZE_eq]
      omega
  · rename_i hng
    have h0 : (sanitized uri).length = 0 := by omega
    rw [List.length_eq_zero.mp h0]

/-- Witness for the amended C2 at a concrete input. -/
theorem uriToSubpath_zero_truncates_all_witness : UriToSubpath "abc" 0 = "" :=
  uriToSubpath_zero_truncates_all "abc" (by decide)

/-- C4: for every uri of length at least 8 accepted by `IsFileUri` whose
character at index 7 is not a slash, `FileUriToPath` drops 5 characters on
the platform with UNC semantics (Windows) and 6 characters elsewhere. -/
theorem fileUriToPath_authority (w : Bool) (uri : String)
    (h8 : 8 ≤ uri.data.length) (hf : IsFileUri uri = true)
    (h7 : uri.data[7]? ≠ some '/') :
    FileUriToPath w uri = String.mk (uri.data.drop (if w then 5 else 6)) := by
  have hg : ¬(uri.data.length < 8 ∨ IsFileUri uri = false) := by
    push_neg
    exact ⟨by omega, by simp [hf]⟩
  unfold FileUriToPath
  rw [if_neg hg, if_neg h7]
  cases w <;> rfl

/-- Witness for C4: the authority-form example from the spec, on both
platform settings. -/
theorem fileUriToPath_authority_witness :
    FileUriToPath true "file://host/some/path" = "//host/some/path" ∧
    FileUriToPath false "file://host/some/path" = "/host/some/path" :=
  ⟨(fileUriToPath_authority true "file://host/some/path" (by decide) (by decide)
      (by decide)).trans (by decide),
   (fileUriToPath_authority false "file://host/some/path" (by decide) (by decide)
      (by decide)).trans (by decide)⟩

/-- C5: whenever the stripped-and-replaced string fits within `maxLength`,
`UriToSubpath` returns exactly the string described by the spec: strip the
first matching scheme among `http://`, `https://`, `ipfs://` (in that
order), then replace each of the seven special characters by an underscore,
leaving everything else (and the length) unchanged. -/
theorem uriToSubpath_below_max (uri : String) (maxLength : Nat)
    (h : (specSanitize uri).data.length ≤ maxLength) :
    UriToSubpath uri maxLength = specSanitize uri := by
  rw [specSanitize_eq] at h ⊢
  rw [data_mk] at h
  unfold UriToSubpath
  rw [if_neg (not_lt.mpr h)]

/-- Witness for C5: the example from the spec. -/
theorem uriToSubpath_below_max_witness :
    UriToSubpath "https://foo.com/x?y#1" 13 = "foo_com_x_y_1" :=
  (uriToSubpath_below_max "https://foo.com/x?y#1" 13 (by decide)).trans (by decide)

/-- C6: `FileUriToPath` fails soft, returning the empty path, whenever the
input is shorter than 8 characters or `IsFileUri` rejects it — on either
platform setting. -/
theorem fileUriToPath_soft_fail (w : Bool) (uri : String)
    (h : uri.data.length < 8 ∨ IsFileUri uri = false) :
    FileUriToPath w uri = "" := by
  unfold FileUriToPath
  rw [if_pos h]

/-- Witness for C6: a too-short input and a wrong-scheme input. -/
theorem fileUriToPath_soft_fail_witness :
    FileUriToPath true "file:/" = "" ∧ FileUriToPath false "http://aa/bb" = "" :=
  ⟨fileUriToPath_soft_fail true "file:/" (Or.inl (by decide)),
   fileUriToPath_soft_fail false "http://aa/bb" (Or.inr (by decide))⟩

/-- C9: for every uri and every `maxLength`, no character of the string
returned by `UriToSubpath` is one of the seven special characters
`/ \ # ? : . &` — whether or not truncation occurs. -/
theorem uriToSubpath_no_special_chars (uri : String) (maxLength : Nat) :
    (UriToSubpath uri maxLength).data.all
      (fun c => !("/\\#?:.&".data.contains c)) = true := by
  rw [List.all_eq_true]
  intro c hc
  have hmem : c ∈ sanitized uri := by
    unfold UriToSubpath at hc
    split at hc
    · rw [data_mk] at hc
      exact (List.drop_sublist _ _).subset hc
    · rw [data_mk] at hc
      exact hc
  unfold sanitized at hmem
  rcases List.mem_map.mp hmem with ⟨c0, -, rfl⟩
  show (!("/\\#?:.&".data.contains (replaceSpecialChar c0))) = true
  rw [replaceSpecialChar_not_special c0]
  rfl

/-- C10: the well-formed eight-character input `file:///` maps to the empty
path, the same sentinel `FileUriToPath` returns for malformed inputs (here a
wrong-scheme input and a too-short input), on either platform setting. -/
theorem fileUriToPath_empty_sentinel (w : Bool) :
    FileUriToPath w "file:///" = "" ∧ FileUriToPath w "http://a.b/c" = "" ∧
    FileUriToPath w "file:/" = "" := by
  cases w <;> exact ⟨by decide, by decide, by decide⟩

/-- C7: `IsFileUri` accepts exactly the strings starting with the seven
characters `file://` or the seven characters `FILE://` (no other casing),
and every input shorter than 7 characters is rejected. -/
theorem isFileUri_two_casings (uri : String) :
    (IsFileUri uri = true ↔
      ("file://".data.isPrefixOf uri.data = true
        ∨ "FILE://".data.isPrefixOf uri.data = true)) ∧
    (uri.data.length < 7 → IsFileUri uri = false) := by
  have h1 := cstrncmpEq_len "file://".data 7 rfl uri.data
  have h2 := cstrncmpEq_len "FILE://".data 7 rfl uri.data
  constructor
  · unfold IsFileUri
    rw [h1, h2, Bool.or_eq_true]
  · intro hlen
    unfold IsFileUri
    rw [h1, h2, isPrefixOf_false_of_short (t := "file://".data) (by simpa using hlen),
      isPrefixOf_false_of_short (t := "FILE://".data) (by simpa using hlen)]
    rfl

/-- Witness for C7: an accepted exact casing, a rejected mixed casing, and a
rejected short input. -/
theorem isFileUri_two_casings_witness :
    IsFileUri "file://x" = true ∧ IsFileUri "File://x" = false ∧
    IsFileUri "abc" = false := by
  refine ⟨(isFileUri_two_casings "file://x").1.mpr (Or.inl (by decide)), ?_,
    (isFileUri_two_casings "abc").2 (by decide)⟩
  cases hv : IsFileUri "File://x"
  · rfl
  · exact absurd ((isFileUri_two_casings "File://x").1.mp hv) (by decide)

/-- C8: `IsHttpUri` holds exactly when the fully lower-cased input starts
with `http://` or `https://`, and every such http(s) URI, in any casing, is
rejected by `IsFileUri`. -/
theorem isHttpUri_case_insensitive (uri : String) :
    (IsHttpUri uri = true ↔
      ("http://".data.isPrefixOf (stringToLower uri.data) = true
        ∨ "https://".data.isPrefixOf (stringToLower uri.data) = true)) ∧
    (IsHttpUri uri = true → IsFileUri uri = false) := by
  have h1 := cstrncmpEq_len "http://".data 7 rfl (stringToLower uri.data)
  have h2 := cstrncmpEq_len "https://".data 8 rfl (stringToLower uri.data)
  have hiff : IsHttpUri uri = true ↔
      ("http://".data.isPrefixOf (stringToLower uri.data) = true
        ∨ "https://".data.isPrefixOf (stringToLower uri.data) = true) := by
    unfold IsHttpUri
    rw [h1, h2, Bool.or_eq_true]
  refine ⟨hiff, fun hh => ?_⟩
  have hlow : (stringToLower uri.data).head? = some 'h' := by
    rcases hiff.mp hh with hp | hp
    · exact isPrefixOf_head hp
    · exact isPrefixOf_head hp
  cases hv : IsFileUri uri
  · rfl
  · exfalso
    have hf1 := cstrncmpEq_len "file://".data 7 rfl uri.data
    have hf2 := cstrncmpEq_len "FILE://".data 7 rfl uri.data
    unfold IsFileUri at hv
    rw [hf1, hf2, Bool.or_eq_true] at hv
    have hhead : uri.data.head? = some 'f' ∨ uri.data.head? = some 'F' := by
      rcases hv with hp | hp
      · exact Or.inl (isPrefixOf_head hp)
      · exact Or.inr (isPrefixOf_head hp)
    unfold stringToLower at hlow
    rw [List.head?_map] at hlow
    rcases hhead with hf | hf <;> rw [hf] at hlow <;> exact absurd hlow (by decide)

/-- Witness for C8: a mixed-case https URI is accepted by `IsHttpUri` and
rejected by `IsFileUri`. -/
theorem isHttpUri_case_insensitive_witness :
    IsHttpUri "HtTpS://x" = true ∧ IsFileUri "HtTpS://x" = false := by
  have h := isHttpUri_case_insensitive "HtTpS://x"
  exact ⟨h.1.mpr (Or.inr (by decide)), h.2 (h.1.mpr (Or.inr (by decide)))⟩

/-- C3 (counterexample): the path `/foo/bar` has no UNC authority (its root
name is empty), yet the round trip through `PathToFileUri` and
`FileUriToPath` loses the leading slash on both platform settings, so it
does not reproduce the forward-slash form of the path. -/
theorem pathUriRoundTrip_counterexample :
    PathToFileUri "/foo/bar" = "file:///foo/bar" ∧
    FileUriToPath true (PathToFileUri "/foo/bar") = "foo/bar" ∧
    FileUriToPath false (PathToFileUri "/foo/bar") = "foo/bar" ∧
    String.mk ("/foo/bar".data.map toSlash) = "/foo/bar" ∧
    FileUriToPath true (PathToFileUri "/foo/bar")
      ≠ String.mk ("/foo/bar".data.map toSlash) ∧
    FileUriToPath false (PathToFileUri "/foo/bar")
      ≠ String.mk ("/foo/bar".data.map toSlash) := by
  exact ⟨by decide, by decide, by decide, by decide, by decide, by decide⟩

/-- C3 (amended): the round trip does hold for every path whose root name is
a drive letter — a letter followed by a colon — on either platform setting:
`FileUriToPath (PathToFileUri p)` is the forward-slash form of `p`. Paths
with an empty root name (absolute like `/foo/bar` or relative like
`foo/bar`) do not round-trip. -/
theorem pathUriRoundTrip_drive (w : Bool) (p : String) (a : Char)
    (rest : List Char) (hp : p.data = a :: ':' :: rest) (ha : a.isAlpha = true) :
    FileUriToPath w (PathToFileUri p) = String.mk (p.data.map toSlash) := by
  have hback : a ≠ '\\' := fun he => absurd ha (by rw [he]; decide)
  have htos : toSlash a = a := by unfold toSlash; rw [if_neg hback]
  have hmap2 : ([a, ':'] : List Char).map toSlash = [a, ':'] := by
    show [toSlash a, toSlash ':'] = [a, ':']
    rw [htos]
    rfl
  have hdata8 : "file:///".data = ['f', 'i', 'l', 'e', ':', '/', '/', '/'] := rfl
  have huncc : ¬((2 ≤ ([a, ':'] : List Char).length
      ∧ ([a, ':'] : List Char).take 2 = ['/', '/'])
      ∨ ([a, ':'] : List Char).take 2 = ['\\', '\\']) := by
    have ht : ([a, ':'] : List Char).take 2 = [a, ':'] := rfl
    rintro (⟨-, he⟩ | he) <;> rw [ht] at he <;>
      · injection he with he1 he2
        injection he2 with he3 he4
        exact absurd he3 (by decide)
  have hPF : PathToFileUri p
      = String.mk (['f', 'i', 'l', 'e', ':', '/', '/', '/']
          ++ (a :: ':' :: rest.map toSlash)) := by
    simp only [PathToFileUri, hp, splitRootName_drive a rest ha]
    rw [if_pos (by simp), if_neg huncc, hmap2, List.append_assoc,
      List.takeWhile_append_dropWhile, List.map_append, List.map_append, hmap2]
    have hfile : "file:///".data.map toSlash
        = ['f', 'i', 'l', 'e', ':', '/', '/', '/'] := rfl
    rw [hfile]
    rfl
  rw [hPF]
  unfold FileUriToPath
  simp only [data_mk]
  have hfileuri : IsFileUri (String.mk (['f', 'i', 'l', 'e', ':', '/', '/', '/']
      ++ (a :: ':' :: rest.map toSlash))) = true := by
    unfold IsFileUri
    rw [data_mk, Bool.or_eq_true]
    left
    simp [cstrncmpEq]
  have hnotshort : ¬((['f', 'i', 'l', 'e', ':', '/', '/', '/']
      ++ (a :: ':' :: rest.map toSlash)).length < 8) := by
    simp only [List.length_append, List.length_cons, List.length_nil]
    omega
  have h7 : (['f', 'i', 'l', 'e', ':', '/', '/', '/']
      ++ (a :: ':' :: rest.map toSlash))[7]? = some '/' := by
    simp
  rw [if_neg (by rw [not_or]; exact ⟨hnotshort, by rw [hfileuri]; decide⟩), if_pos h7]
  have hdrop : (['f', 'i', 'l', 'e', ':', '/', '/', '/']
      ++ (a :: ':' :: rest.map toSlash)).drop 8 = a :: ':' :: rest.map toSlash := by
    simp
  rw [hdrop, hp]
  show String.mk (a :: ':' :: rest.map toSlash)
    = String.mk (toSlash a :: toSlash ':' :: rest.map toSlash)
  rw [htos]
  rfl

/-- Witness for the amended C3 at the drive-letter path from the repository
tests, on both platform settings. -/
theorem pathUriRoundTrip_drive_witness :
    FileUriToPath true (PathToFileUri "c:/somepath/somefile.ext")
      = "c:/somepath/somefile.ext" ∧
    FileUriToPath false (PathToFileUri "c:/somepath/somefile.ext")
      = "c:/somepath/somefile.ext" :=
  ⟨(pathUriRoundTrip_drive true "c:/somepath/somefile.ext" 'c'
      "/somepath/somefile.ext".data rfl (by decide)).trans (by decide),
   (pathUriRoundTrip_drive false "c:/somepath/somefile.ext" 'c'
      "/somepath/somefile.ext".data rfl (by decide)).trans (by decide)⟩

end PathTools
